import Mathlib

/-!
Verification of the appsec-reports vulnerability report generator.

Shallow embedding of the Python sources:
- `src/src/models/report_data.py` (SeverityStats, aggregations, ReportData)
- `src/src/api/dynatrace_api.py` (DynatraceApi: query_api, pagination, memoized detail lookup)
- `src/src/generators/pdf_generator.py` (PdfReportGenerator.generate)

Machine integers are modelled with Nat/Int; Python dicts that preserve
insertion order are modelled as association lists updated in place with new
keys appended at the end; fallible code returns Except; the unbounded
while-loop over page cursors takes an explicit fuel argument and returns
`Option.none` when the fuel is exhausted (the Python loop would still be
running).
-/

namespace AppSec

/-- Modelled from the spec: the `Severity` enumeration of the missing
`src/models/vulnerability.py`. The data model names "severity (one of
Critical/High/Medium/Low)", and the aggregation logic explicitly tolerates
"unmapped/unknown severities", so the model keeps one constructor per known
level plus `other` carrying the raw unmapped value. -/
inductive Severity where
  | critical
  | high
  | medium
  | low
  | other (raw : String)
deriving DecidableEq, Repr

/-- `true` exactly on the four known severity levels. -/
def Severity.isKnown : Severity → Bool
  | .critical => true
  | .high => true
  | .medium => true
  | .low => true
  | .other _ => false

/-- Modelled from the spec: the `VulnerabilityData` record of the missing
`src/models/vulnerability.py`: "identifier, severity, first-seen timestamp
(epoch milliseconds), set of affected host IDs, set of affected
process-group IDs". The two ID sets are kept as lists because the
aggregation code iterates them in order. -/
structure VulnerabilityData where
  security_problem_id : String
  severity : Severity
  first_seen_timestamp : Int
  hosts : List String
  process_groups : List String
deriving DecidableEq, Repr

/-- A `datetime.datetime` value, represented by its epoch timestamp in
milliseconds; `timestampMs` stands for the Python idiom
`int(t.timestamp() * 1000)`. -/
structure Datetime where
  msSinceEpoch : Int
deriving DecidableEq, Repr

def Datetime.timestampMs (t : Datetime) : Int := t.msSinceEpoch

/-- `SeverityStats` from `report_data.py`: four counters. -/
@[ext]
structure SeverityStats where
  critical : Nat := 0
  high : Nat := 0
  medium : Nat := 0
  low : Nat := 0
deriving DecidableEq, Repr

/-- `SeverityStats.total`: `critical + high + medium + low`. -/
def SeverityStats.total (s : SeverityStats) : Nat :=
  s.critical + s.high + s.medium + s.low

/-- The `if/elif` chain shared by `overall_severity_stats` and both
aggregation builders in `report_data.py`: bump the counter matching the
severity, leaving the stats unchanged on any other value (no `else`
branch in the source). -/
def bumpSeverityStats (s : SeverityStats) : Severity → SeverityStats
  | .critical => { s with critical := s.critical + 1 }
  | .high => { s with high := s.high + 1 }
  | .medium => { s with medium := s.medium + 1 }
  | .low => { s with low := s.low + 1 }
  | .other _ => s

/-- `ReportData` from `report_data.py`. -/
structure ReportData where
  management_zone : String
  start_time : Datetime
  end_time : Datetime
  generated_at : Datetime
  vulnerabilities : List VulnerabilityData
deriving DecidableEq, Repr

/-- `ReportData.overall_severity_stats`: one pass over the vulnerability
list threading a `SeverityStats` accumulator through the `if/elif` chain. -/
def ReportData.overall_severity_stats (r : ReportData) : SeverityStats :=
  r.vulnerabilities.foldl (fun stats vuln => bumpSeverityStats stats vuln.severity) {}

/-- `ReportData.new_vulnerabilities`: keep the vulnerabilities whose
`first_seen_timestamp` is at or after the window start in epoch ms. -/
def ReportData.new_vulnerabilities (r : ReportData) : List VulnerabilityData :=
  let start_ts := r.start_time.timestampMs
  r.vulnerabilities.filter (fun vuln => start_ts ≤ vuln.first_seen_timestamp)

/-- An aggregation bucket. `HostAggregation` and `ProcessGroupAggregation`
in `report_data.py` are two dataclasses of identical shape (ID, display
name, severity stats, vulnerability list); one structure embeds both, with
`entity_id`/`entity_name` standing for `host_id`/`host_name` and
`process_group_id`/`process_group_name`. -/
structure Aggregation where
  entity_id : String
  entity_name : String
  severity_stats : SeverityStats
  vulnerabilities : List VulnerabilityData := []
deriving DecidableEq, Repr

/-- `total_vulnerabilities`: length of the bucket's vulnerability list. -/
def Aggregation.total_vulnerabilities (a : Aggregation) : Nat :=
  a.vulnerabilities.length

/-- The bucket created on a fresh key: the display name defaults to the raw
ID (`host_name=host_id`, `process_group_name=pg_id` in the source) and the
stats start at zero. -/
def emptyAggregation (key : String) : Aggregation :=
  { entity_id := key, entity_name := key, severity_stats := {} }

/-- The unconditional part of the loop body: append the vulnerability to the
bucket and bump the matching severity counter (the `if/elif` chain). -/
def Aggregation.addVuln (a : Aggregation) (v : VulnerabilityData) : Aggregation :=
  { a with
    vulnerabilities := a.vulnerabilities ++ [v]
    severity_stats := bumpSeverityStats a.severity_stats v.severity }

/-- One iteration of the inner loop of `process_group_aggregations` /
`host_aggregations`: look the key up in the dict, creating an empty bucket
if absent, then append and bump. The Python dict preserves insertion order,
modelled by an in-place update that appends fresh keys at the end. -/
def insertVuln (key : String) (v : VulnerabilityData) :
    List Aggregation → List Aggregation
  | [] => [(emptyAggregation key).addVuln v]
  | a :: rest =>
      if a.entity_id = key then a.addVuln v :: rest
      else a :: insertVuln key v rest

/-- The double loop of both aggregation builders: for each vulnerability,
for each key in its key set, insert it into that key's bucket. -/
def aggregateBy (keyFn : VulnerabilityData → List String)
    (vulns : List VulnerabilityData) : List Aggregation :=
  vulns.foldl (fun acc v => (keyFn v).foldl (fun acc2 k => insertVuln k v acc2) acc) []

/-- Stable descending insertion by `total_vulnerabilities`: the new element
goes before the first element whose total is not larger, so elements with
equal totals keep their original relative order. -/
def insertByTotalDesc (x : Aggregation) : List Aggregation → List Aggregation
  | [] => [x]
  | y :: ys =>
      if y.total_vulnerabilities ≤ x.total_vulnerabilities then x :: y :: ys
      else y :: insertByTotalDesc x ys

/-- `sorted(..., key=lambda x: x.total_vulnerabilities, reverse=True)`:
Python's sort is stable and descending on the key, which determines its
output uniquely; this stable insertion sort produces that output. -/
def sortByTotalDesc : List Aggregation → List Aggregation
  | [] => []
  | x :: xs => insertByTotalDesc x (sortByTotalDesc xs)

/-- `ReportData.process_group_aggregations`: build the insertion-ordered
dict of buckets, then sort by total vulnerabilities descending. -/
def ReportData.process_group_aggregations (r : ReportData) : List Aggregation :=
  sortByTotalDesc (aggregateBy (fun v => v.process_groups) r.vulnerabilities)

/-- `ReportData.host_aggregations`: same construction keyed by hosts. -/
def ReportData.host_aggregations (r : ReportData) : List Aggregation :=
  sortByTotalDesc (aggregateBy (fun v => v.hosts) r.vulnerabilities)

/-- The order in which distinct keys are first encountered while scanning a
key sequence left to right. -/
def firstEncounterKeys (keys : List String) : List String :=
  keys.foldl (fun acc k => if k ∈ acc then acc else acc ++ [k]) []

/-- The severity statistics of a vulnerability list (the same fold
`overall_severity_stats` performs, reused to state bucket invariants). -/
def severityStatsOf (l : List VulnerabilityData) : SeverityStats :=
  l.foldl (fun stats vuln => bumpSeverityStats stats vuln.severity) {}

/-- Concrete vulnerability on one host and one process group. -/
def vulnFixture : VulnerabilityData :=
  { security_problem_id := "SP-1", severity := .critical, first_seen_timestamp := 10
    hosts := ["HOST-1"], process_groups := ["PG-1"] }

/-- Concrete vulnerability associated with no host and no process group. -/
def vulnNoHosts : VulnerabilityData :=
  { security_problem_id := "SP-0", severity := .critical, first_seen_timestamp := 0
    hosts := [], process_groups := [] }

/-- Concrete report around `vulnFixture`. -/
def reportFixture : ReportData :=
  { management_zone := "zone", start_time := ⟨0⟩, end_time := ⟨100⟩
    generated_at := ⟨100⟩, vulnerabilities := [vulnFixture] }

/-- Concrete report whose only vulnerability has no hosts. -/
def reportNoHosts : ReportData :=
  { management_zone := "zone", start_time := ⟨0⟩, end_time := ⟨100⟩
    generated_at := ⟨100⟩, vulnerabilities := [vulnNoHosts] }

/-- The single host bucket produced by `reportFixture`. -/
def bucketFixture : Aggregation :=
  { entity_id := "HOST-1", entity_name := "HOST-1"
    severity_stats := { critical := 1 }, vulnerabilities := [vulnFixture] }

/-- The error raised by `DynatraceApi.query_api` on a non-200 response:
`RuntimeError(f'API request failed: {status_code} ({reason})', content)`
carries the status code, the reason phrase and the response body. -/
structure ApiError where
  status_code : Nat
  reason : String
  content : String
deriving DecidableEq, Repr

/-- An HTTP response as `query_api` observes it: status code, reason
phrase, raw body bytes, and the parsed JSON body of type `α`. -/
structure HttpResponse (α : Type) where
  status_code : Nat
  reason : String
  content : String
  body : α
deriving DecidableEq, Repr

/-- `DynatraceApi.query_api`: build the URL from tenant and endpoint,
perform the GET, raise on any status other than 200, otherwise return the
parsed body. `fetch` models `requests.get(url, headers=auth_header,
verify=self.verify_ssl)`; the Authorization header and the verify flag are
fixed per client and absorbed into `fetch`. -/
def query_api {α : Type} (fetch : String → HttpResponse α)
    (tenant endpoint : String) : Except ApiError α :=
  let url := tenant ++ endpoint
  let response := fetch url
  if response.status_code ≠ 200 then
    Except.error ⟨response.status_code, response.reason, response.content⟩
  else
    Except.ok response.body

/-- The JSON body of a security-problem list response:
`response.get("securityProblems", [])` (a missing field is the empty list)
and the optional `nextPageKey` cursor. Individual security-problem records
are left opaque as strings. -/
structure SecurityProblemsPage where
  securityProblems : List String
  nextPageKey : Option String
deriving DecidableEq, Repr

/-- The endpoint used for every follow-up page:
`f'/api/v2/securityProblems?nextPageKey=\x7bresponse["nextPageKey"]\x7d'`. -/
def nextPageEndpoint (key : String) : String :=
  "/api/v2/securityProblems?nextPageKey=" ++ key

/-- The `while "nextPageKey" in response` loop of
`_query_all_security_problems`, with an explicit fuel bound on the number
of cursor follow-ups; `Option.none` means the fuel ran out while a cursor
was still present (the Python loop would still be iterating). -/
def followSecurityProblemPages (fetch : String → HttpResponse SecurityProblemsPage)
    (tenant : String) (fuel : Nat) (acc : List String) :
    Option String → Option (Except ApiError (List String))
  | Option.none => some (Except.ok acc)
  | some key =>
      match fuel with
      | 0 => Option.none
      | n + 1 =>
          match query_api fetch tenant (nextPageEndpoint key) with
          | Except.error e => some (Except.error e)
          | Except.ok page =>
              followSecurityProblemPages fetch tenant n
                (acc ++ page.securityProblems) page.nextPageKey

/-- `DynatraceApi._query_all_security_problems`: fetch the first page, then
follow the cursor, accumulating `securityProblems` in order. -/
def query_all_security_problems (fetch : String → HttpResponse SecurityProblemsPage)
    (tenant endpoint : String) (fuel : Nat) :
    Option (Except ApiError (List String)) :=
  match query_api fetch tenant endpoint with
  | Except.error e => some (Except.error e)
  | Except.ok page =>
      followSecurityProblemPages fetch tenant fuel
        page.securityProblems page.nextPageKey

/-- A `DynatraceApi` client instance. `@lru_cache(maxsize=None)` on
`get_security_problem_details` keys its unbounded cache by
`(self, security_problem_id)` and the class hashes by identity, so the
observable behavior is a per-instance map from ID to cached result,
embedded here as the `details_cache` field. -/
structure DynatraceApi where
  tenant : String
  api_token : String
  verify_ssl : Bool
  details_cache : List (String × String) := []
deriving DecidableEq, Repr

/-- Lookup in the memoization cache. -/
def cacheLookup : List (String × String) → String → Option String
  | [], _ => Option.none
  | (k, d) :: rest, pid => if k = pid then some d else cacheLookup rest pid

/-- The detail endpoint of `get_security_problem_details`. -/
def detailsEndpoint (problem_id : String) : String :=
  "/api/v2/securityProblems/" ++ problem_id ++
    "?fields=+affectedEntities,+relatedEntities,+riskAssessment,+managementZones"

/-- `DynatraceApi.get_security_problem_details`: on a cache hit return the
cached detail without any HTTP call; on a miss perform one `query_api`
call, caching the result on success (an exception caches nothing, as
`lru_cache` only stores returned values). The result is the outcome, the
updated client, and the number of HTTP requests performed. Detail records
are opaque strings. -/
def get_security_problem_details (fetch : String → HttpResponse String)
    (c : DynatraceApi) (problem_id : String) :
    Except ApiError String × DynatraceApi × Nat :=
  match cacheLookup c.details_cache problem_id with
  | some d => (Except.ok d, c, 0)
  | Option.none =>
      match query_api fetch c.tenant (detailsEndpoint problem_id) with
      | Except.error e => (Except.error e, c, 1)
      | Except.ok d =>
          (Except.ok d, { c with details_cache := c.details_cache ++ [(problem_id, d)] }, 1)

/-- `Path.unlink()`: the filesystem is a set of existing paths, as a
boolean membership function. -/
def removeFile (fs : String → Bool) (path : String) : String → Bool :=
  fun q => if q = path then false else fs q

/-- The `finally` block of `PdfReportGenerator.generate`:
`if temp_html.exists(): temp_html.unlink()`. -/
def cleanupTempHtml (temp_html : String) (fs : String → Bool) : String → Bool :=
  if fs temp_html then removeFile fs temp_html else fs

/-- `output_file.with_suffix('.temp.html')`: drop the extension after the
last dot (keep the whole name when there is none) and append `.temp.html`;
directory-separator subtleties of `pathlib` are elided. -/
def withTempHtmlSuffix (output_file : String) : String :=
  let parts := output_file.splitOn "."
  if parts.length ≤ 1 then output_file ++ ".temp.html"
  else String.intercalate "." parts.dropLast ++ ".temp.html"

/-- `PdfReportGenerator.generate`: derive the temp HTML path from the
output path, run the HTML generation step, then the Playwright conversion
block, each an abstract filesystem transformer that may also return an
exception; the `finally` cleanup runs on every exit path and the exception,
if any, propagates. -/
def PdfReportGenerator.generate
    (htmlStep conversionStep : (String → Bool) → (String → Bool) × Option String)
    (output_file : String) (fs : String → Bool) : (String → Bool) × Option String :=
  let temp_html := withTempHtmlSuffix output_file
  match htmlStep fs with
  | (fs1, some e) => (cleanupTempHtml temp_html fs1, some e)
  | (fs1, Option.none) =>
      match conversionStep fs1 with
      | (fs2, result) => (cleanupTempHtml temp_html fs2, result)

/-- A three-page fetch fixture: the initial endpoint yields two items and a
cursor, two follow-ups yield one item each, the second with no cursor. -/
def threePageFetch : String → HttpResponse SecurityProblemsPage :=
  fun url =>
    if url = "https://tenant/api/v2/securityProblems?pageSize=500" then
      ⟨200, "OK", "", ⟨["a1", "a2"], some "KEY1"⟩⟩
    else if url = "https://tenant" ++ nextPageEndpoint "KEY1" then
      ⟨200, "OK", "", ⟨["b1"], some "KEY2"⟩⟩
    else if url = "https://tenant" ++ nextPageEndpoint "KEY2" then
      ⟨200, "OK", "", ⟨["c1"], Option.none⟩⟩
    else ⟨404, "Not Found", "", ⟨[], Option.none⟩⟩

/-- A fetch whose every response has the success status 204 (No Content). -/
def successStatusFetch : String → HttpResponse SecurityProblemsPage :=
  fun _ => ⟨204, "No Content", "", ⟨[], Option.none⟩⟩

/-- A fetch whose every response is a 500 error. -/
def errorPageFetch : String → HttpResponse SecurityProblemsPage :=
  fun _ => ⟨500, "Internal Server Error", "boom", ⟨[], Option.none⟩⟩

/-- A fetch answering every detail request with the same record. -/
def detailFetch : String → HttpResponse String :=
  fun _ => ⟨200, "OK", "", "detail-record"⟩

/-- A fresh client instance. -/
def clientFixture : DynatraceApi :=
  { tenant := "https://tenant", api_token := "token", verify_ssl := true }

/-- `clientFixture` after one successful detail lookup of `SP-1`. -/
def clientAfterLookup : DynatraceApi :=
  { tenant := "https://tenant", api_token := "token", verify_ssl := true
    details_cache := [("SP-1", "detail-record")] }

end AppSec

namespace AppSec

@[simp] theorem isKnown_critical : Severity.isKnown .critical = true := rfl

@[simp] theorem isKnown_high : Severity.isKnown .high = true := rfl

@[simp] theorem isKnown_medium : Severity.isKnown .medium = true := rfl

@[simp] theorem isKnown_low : Severity.isKnown .low = true := rfl

@[simp] theorem isKnown_other (raw : String) : Severity.isKnown (.other raw) = false := rfl

theorem foldl_bumpSeverityStats (l : List VulnerabilityData) (s : SeverityStats) :
    l.foldl (fun stats vuln => bumpSeverityStats stats vuln.severity) s =
      { critical := s.critical + l.countP (fun v => v.severity == Severity.critical)
        high := s.high + l.countP (fun v => v.severity == Severity.high)
        medium := s.medium + l.countP (fun v => v.severity == Severity.medium)
        low := s.low + l.countP (fun v => v.severity == Severity.low) } := by
  induction l generalizing s with
  | nil => simp
  | cons v t ih =>
      rw [List.foldl_cons, ih]
      cases hv : v.severity <;>
        · ext <;> simp [bumpSeverityStats, List.countP_cons, hv] <;> omega

theorem countP_known_severity (l : List VulnerabilityData) :
    l.countP (fun v => v.severity == Severity.critical) +
      l.countP (fun v => v.severity == Severity.high) +
      l.countP (fun v => v.severity == Severity.medium) +
      l.countP (fun v => v.severity == Severity.low) =
      l.countP (fun v => v.severity.isKnown) := by
  induction l with
  | nil => simp
  | cons v t ih =>
      cases hv : v.severity <;> simp [List.countP_cons, hv] <;> omega

/-- Claim C1: the overall severity statistics count each known severity exactly,
and their sum is the number of vulnerabilities whose severity is one of the
four known values; vulnerabilities with any other severity are excluded
from all four counters. -/
theorem overall_severity_stats_correct (r : ReportData) :
    r.overall_severity_stats.critical =
        (r.vulnerabilities.filter (fun v => v.severity == Severity.critical)).length ∧
      r.overall_severity_stats.high =
        (r.vulnerabilities.filter (fun v => v.severity == Severity.high)).length ∧
      r.overall_severity_stats.medium =
        (r.vulnerabilities.filter (fun v => v.severity == Severity.medium)).length ∧
      r.overall_severity_stats.low =
        (r.vulnerabilities.filter (fun v => v.severity == Severity.low)).length ∧
      r.overall_severity_stats.critical + r.overall_severity_stats.high +
          r.overall_severity_stats.medium + r.overall_severity_stats.low =
        (r.vulnerabilities.filter (fun v => v.severity.isKnown)).length := by
  have h := foldl_bumpSeverityStats r.vulnerabilities {}
  rw [ReportData.overall_severity_stats, h]
  refine ⟨?_, ?_, ?_, ?_, ?_⟩ <;>
    simp [← List.countP_eq_length_filter]
  exact countP_known_severity r.vulnerabilities

/-- Claim C2: membership in `new_vulnerabilities` is exactly membership in the
vulnerability list together with a first-seen timestamp at or after the
window start in epoch milliseconds. -/
theorem new_vulnerabilities_correct (r : ReportData) (v : VulnerabilityData) :
    v ∈ r.new_vulnerabilities ↔
      v ∈ r.vulnerabilities ∧ r.start_time.timestampMs ≤ v.first_seen_timestamp := by
  simp [ReportData.new_vulnerabilities, List.mem_filter]

theorem insertByTotalDesc_perm (x : Aggregation) (l : List Aggregation) :
    (insertByTotalDesc x l).Perm (x :: l) := by
  induction l with
  | nil => exact List.Perm.refl _
  | cons y ys ih =>
      rw [insertByTotalDesc]
      split
      · exact List.Perm.refl _
      · exact (List.Perm.cons y ih).trans (List.Perm.swap x y ys)

theorem sortByTotalDesc_perm (l : List Aggregation) :
    (sortByTotalDesc l).Perm l := by
  induction l with
  | nil => exact List.Perm.refl _
  | cons x xs ih =>
      exact (insertByTotalDesc_perm x (sortByTotalDesc xs)).trans (List.Perm.cons x ih)

theorem pairwise_insertByTotalDesc (x : Aggregation) (l : List Aggregation)
    (h : l.Pairwise (fun a b => b.total_vulnerabilities ≤ a.total_vulnerabilities)) :
    (insertByTotalDesc x l).Pairwise
      (fun a b => b.total_vulnerabilities ≤ a.total_vulnerabilities) := by
  induction l with
  | nil => simp [insertByTotalDesc]
  | cons y ys ih =>
      rw [insertByTotalDesc]
      rcases List.pairwise_cons.mp h with ⟨hy, hys⟩
      split
      · rename_i hc
        refine List.pairwise_cons.mpr ⟨?_, h⟩
        intro b hb
        rcases List.mem_cons.mp hb with rfl | hb
        · exact hc
        · exact le_trans (hy b hb) hc
      · rename_i hc
        refine List.pairwise_cons.mpr ⟨?_, ih hys⟩
        intro b hb
        rcases List.mem_cons.mp ((insertByTotalDesc_perm x ys).mem_iff.mp hb) with rfl | hb
        · omega
        · exact hy b hb

theorem sortByTotalDesc_pairwise (l : List Aggregation) :
    (sortByTotalDesc l).Pairwise
      (fun a b => b.total_vulnerabilities ≤ a.total_vulnerabilities) := by
  induction l with
  | nil => simp [sortByTotalDesc]
  | cons x xs ih => exact pairwise_insertByTotalDesc x (sortByTotalDesc xs) ih

theorem filter_insertByTotalDesc (t : Nat) (x : Aggregation) (l : List Aggregation) :
    (insertByTotalDesc x l).filter (fun b => b.total_vulnerabilities == t) =
      (x :: l).filter (fun b => b.total_vulnerabilities == t) := by
  induction l with
  | nil => rfl
  | cons y ys ih =>
      rw [insertByTotalDesc]
      split
      · rfl
      · rename_i hc
        by_cases hx : x.total_vulnerabilities = t
        · have hy : ¬ y.total_vulnerabilities = t := by omega
          simp [List.filter_cons, hx, hy, ih]
        · by_cases hy : y.total_vulnerabilities = t <;>
            simp [List.filter_cons, hx, hy, ih]

theorem filter_sortByTotalDesc (t : Nat) (l : List Aggregation) :
    (sortByTotalDesc l).filter (fun b => b.total_vulnerabilities == t) =
      l.filter (fun b => b.total_vulnerabilities == t) := by
  induction l with
  | nil => rfl
  | cons x xs ih =>
      rw [sortByTotalDesc, filter_insertByTotalDesc, List.filter_cons,
        List.filter_cons, ih]

theorem insertVuln_total_count (key : String) (v : VulnerabilityData)
    (st : List Aggregation) :
    ((insertVuln key v st).map (fun a => a.vulnerabilities.length)).sum =
      (st.map (fun a => a.vulnerabilities.length)).sum + 1 := by
  induction st with
  | nil => simp [insertVuln, Aggregation.addVuln, emptyAggregation]
  | cons a rest ih =>
      rw [insertVuln]
      split
      · simp [Aggregation.addVuln]
        omega
      · simp [ih]
        omega

theorem foldl_insertVuln_total_count (v : VulnerabilityData) (keys : List String)
    (st : List Aggregation) :
    ((keys.foldl (fun acc k => insertVuln k v acc) st).map
        (fun a => a.vulnerabilities.length)).sum =
      (st.map (fun a => a.vulnerabilities.length)).sum + keys.length := by
  induction keys generalizing st with
  | nil => simp
  | cons k ks ih =>
      rw [List.foldl_cons, ih, insertVuln_total_count]
      simp only [List.length_cons]
      omega

theorem aggregateBy_total_count (keyFn : VulnerabilityData → List String)
    (vulns : List VulnerabilityData) :
    ((aggregateBy keyFn vulns).map (fun a => a.vulnerabilities.length)).sum =
      (vulns.map (fun v => (keyFn v).length)).sum := by
  suffices h : ∀ st : List Aggregation,
      ((vulns.foldl (fun acc v => (keyFn v).foldl (fun acc2 k => insertVuln k v acc2) acc) st).map
          (fun a => a.vulnerabilities.length)).sum =
        (st.map (fun a => a.vulnerabilities.length)).sum +
          (vulns.map (fun v => (keyFn v).length)).sum by
    have := h []
    simpa [aggregateBy] using this
  induction vulns with
  | nil => simp
  | cons v t ih =>
      intro st
      rw [List.foldl_cons, ih, foldl_insertVuln_total_count]
      simp
      omega

/-- The per-bucket invariant maintained by the aggregation loops. -/
def BucketInv (a : Aggregation) : Prop :=
  a.severity_stats = severityStatsOf a.vulnerabilities ∧
    a.vulnerabilities ≠ [] ∧ a.entity_name = a.entity_id

theorem severityStatsOf_append (l : List VulnerabilityData) (v : VulnerabilityData) :
    severityStatsOf (l ++ [v]) = bumpSeverityStats (severityStatsOf l) v.severity := by
  simp [severityStatsOf, List.foldl_append]

theorem addVuln_inv (a : Aggregation) (v : VulnerabilityData) (h : BucketInv a) :
    BucketInv (a.addVuln v) := by
  rcases h with ⟨hs, hn, hid⟩
  refine ⟨?_, by simp [Aggregation.addVuln], by simpa [Aggregation.addVuln] using hid⟩
  simp [Aggregation.addVuln, hs, severityStatsOf_append]

theorem addVuln_empty_inv (key : String) (v : VulnerabilityData) :
    BucketInv ((emptyAggregation key).addVuln v) := by
  refine ⟨?_, by simp [Aggregation.addVuln, emptyAggregation], rfl⟩
  simp [Aggregation.addVuln, emptyAggregation, severityStatsOf]

theorem insertVuln_inv (key : String) (v : VulnerabilityData)
    (st : List Aggregation) (h : ∀ a ∈ st, BucketInv a) :
    ∀ a ∈ insertVuln key v st, BucketInv a := by
  induction st with
  | nil =>
      intro a ha
      rw [insertVuln] at ha
      rcases List.mem_singleton.mp ha with rfl
      exact addVuln_empty_inv key v
  | cons b rest ih =>
      intro a ha
      rw [insertVuln] at ha
      split at ha
      · rcases List.mem_cons.mp ha with rfl | ha
        · exact addVuln_inv b v (h b (List.mem_cons_self b rest))
        · exact h a (List.mem_cons_of_mem b ha)
      · rcases List.mem_cons.mp ha with rfl | ha
        · exact h a (List.mem_cons_self a rest)
        · exact ih (fun a ha => h a (List.mem_cons_of_mem b ha)) a ha

theorem foldl_insertVuln_inv (v : VulnerabilityData) (keys : List String)
    (st : List Aggregation) (h : ∀ a ∈ st, BucketInv a) :
    ∀ a ∈ keys.foldl (fun acc k => insertVuln k v acc) st, BucketInv a := by
  induction keys generalizing st with
  | nil => exact h
  | cons k ks ih => exact ih (insertVuln k v st) (insertVuln_inv k v st h)

theorem aggregateBy_inv (keyFn : VulnerabilityData → List String)
    (vulns : List VulnerabilityData) :
    ∀ a ∈ aggregateBy keyFn vulns, BucketInv a := by
  suffices h : ∀ st : List Aggregation, (∀ a ∈ st, BucketInv a) →
      ∀ a ∈ vulns.foldl
        (fun acc v => (keyFn v).foldl (fun acc2 k => insertVuln k v acc2) acc) st,
        BucketInv a by
    exact h [] (by simp)
  induction vulns with
  | nil => exact fun st h => h
  | cons v t ih =>
      intro st h
      exact ih _ (foldl_insertVuln_inv v (keyFn v) st h)

theorem insertVuln_ids (key : String) (v : VulnerabilityData)
    (st : List Aggregation) :
    (insertVuln key v st).map (fun a => a.entity_id) =
      if key ∈ st.map (fun a => a.entity_id) then st.map (fun a => a.entity_id)
      else st.map (fun a => a.entity_id) ++ [key] := by
  induction st with
  | nil => simp [insertVuln, Aggregation.addVuln, emptyAggregation]
  | cons a rest ih =>
      rw [insertVuln]
      split
      · rename_i hc
        simp [Aggregation.addVuln, hc]
      · rename_i hc
        have hne : key ≠ a.entity_id := fun h => hc h.symm
        by_cases hk : key ∈ rest.map (fun a => a.entity_id) <;>
          simp [ih, hk, hne]

theorem foldl_insertVuln_ids (v : VulnerabilityData) (keys : List String)
    (st : List Aggregation) :
    (keys.foldl (fun acc k => insertVuln k v acc) st).map (fun a => a.entity_id) =
      keys.foldl (fun acc k => if k ∈ acc then acc else acc ++ [k])
        (st.map (fun a => a.entity_id)) := by
  induction keys generalizing st with
  | nil => rfl
  | cons k ks ih =>
      rw [List.foldl_cons, List.foldl_cons, ih, insertVuln_ids]

theorem aggregateBy_ids (keyFn : VulnerabilityData → List String)
    (vulns : List VulnerabilityData) :
    (aggregateBy keyFn vulns).map (fun a => a.entity_id) =
      firstEncounterKeys (vulns.flatMap keyFn) := by
  suffices h : ∀ st : List Aggregation,
      (vulns.foldl
          (fun acc v => (keyFn v).foldl (fun acc2 k => insertVuln k v acc2) acc) st).map
          (fun a => a.entity_id) =
        (vulns.flatMap keyFn).foldl (fun acc k => if k ∈ acc then acc else acc ++ [k])
          (st.map (fun a => a.entity_id)) by
    have := h []
    simpa [aggregateBy, firstEncounterKeys] using this
  induction vulns with
  | nil => intro st; rfl
  | cons v t ih =>
      intro st
      rw [List.foldl_cons, ih, List.flatMap_cons, List.foldl_append,
        foldl_insertVuln_ids]

theorem severityStatsOf_total (l : List VulnerabilityData) :
    (severityStatsOf l).total = l.countP (fun v => v.severity.isKnown) := by
  rw [severityStatsOf, foldl_bumpSeverityStats]
  simp only [SeverityStats.total, Nat.zero_add]
  exact countP_known_severity l

theorem sum_vs_length (ns : List Nat) (h : ∀ n ∈ ns, 1 ≤ n) :
    ns.length ≤ ns.sum ∧ (ns.sum = ns.length ↔ ∀ n ∈ ns, n = 1) := by
  induction ns with
  | nil => simp
  | cons n t ih =>
      have hn := h n (List.mem_cons_self n t)
      obtain ⟨hle, hiff⟩ := ih (fun m hm => h m (List.mem_cons_of_mem n hm))
      simp only [List.sum_cons, List.length_cons, List.mem_cons]
      refine ⟨by omega, ?_, ?_⟩
      · intro he m hm
        rcases hm with rfl | hm
        · omega
        · exact hiff.mp (by omega) m hm
      · intro hall
        have h1 : n = 1 := hall n (Or.inl rfl)
        have h2 : t.sum = t.length := hiff.mpr (fun m hm => hall m (Or.inr hm))
        omega

/-- Claim C5 counterexample: a vulnerability associated with no host lands in
no bucket, so the bucket totals sum to 0, strictly below the vulnerability
count 1; the claimed inequality fails without a nonemptiness assumption. -/
theorem host_bucket_sum_counterexample :
    ¬ reportNoHosts.vulnerabilities.length ≤
        ((reportNoHosts.host_aggregations).map
          (fun a => a.total_vulnerabilities)).sum := by
  decide

/-- Claim C5 (amended): the bucket totals always sum to the total number of
(vulnerability, host) associations, so when every vulnerability has at least
one host the sum is at least the number of vulnerabilities, with equality
exactly when every vulnerability has exactly one host; a vulnerability with
several hosts is counted once per host bucket. -/
theorem host_bucket_sum_amended (r : ReportData)
    (h : ∀ v ∈ r.vulnerabilities, v.hosts ≠ []) :
    ((r.host_aggregations).map (fun a => a.total_vulnerabilities)).sum =
        (r.vulnerabilities.map (fun v => v.hosts.length)).sum ∧
      r.vulnerabilities.length ≤
        ((r.host_aggregations).map (fun a => a.total_vulnerabilities)).sum ∧
      (((r.host_aggregations).map (fun a => a.total_vulnerabilities)).sum =
          r.vulnerabilities.length ↔
        ∀ v ∈ r.vulnerabilities, v.hosts.length = 1) := by
  have hsum : ((r.host_aggregations).map (fun a => a.total_vulnerabilities)).sum =
      (r.vulnerabilities.map (fun v => v.hosts.length)).sum := by
    rw [ReportData.host_aggregations]
    have hperm :=
      ((sortByTotalDesc_perm (aggregateBy (fun v => v.hosts) r.vulnerabilities)).map
        (fun a => a.total_vulnerabilities)).sum_eq
    rw [hperm]
    simpa [Aggregation.total_vulnerabilities] using
      aggregateBy_total_count (fun v => v.hosts) r.vulnerabilities
  have hpos : ∀ n ∈ r.vulnerabilities.map (fun v => v.hosts.length), 1 ≤ n := by
    intro n hn
    rcases List.mem_map.mp hn with ⟨v, hv, rfl⟩
    have := h v hv
    cases hhosts : v.hosts with
    | nil => exact absurd hhosts this
    | cons a t => simp [hhosts]
  obtain ⟨hle, hiff⟩ := sum_vs_length _ hpos
  rw [List.length_map] at hle hiff
  refine ⟨hsum, by omega, ?_⟩
  rw [hsum, hiff]
  constructor
  · intro hall v hv
    exact hall v.hosts.length (List.mem_map.mpr ⟨v, hv, rfl⟩)
  · intro hall n hn
    rcases List.mem_map.mp hn with ⟨v, hv, rfl⟩
    exact hall v hv

/-- Witness for the amended C5 at a concrete one-host report. -/
theorem host_bucket_sum_amended_witness :
    ((reportFixture.host_aggregations).map (fun a => a.total_vulnerabilities)).sum =
        (reportFixture.vulnerabilities.map (fun v => v.hosts.length)).sum ∧
      reportFixture.vulnerabilities.length ≤
        ((reportFixture.host_aggregations).map (fun a => a.total_vulnerabilities)).sum ∧
      (((reportFixture.host_aggregations).map (fun a => a.total_vulnerabilities)).sum =
          reportFixture.vulnerabilities.length ↔
        ∀ v ∈ reportFixture.vulnerabilities, v.hosts.length = 1) :=
  host_bucket_sum_amended reportFixture (by decide)

/-- Claim C6: both aggregation lists are non-increasing in
`total_vulnerabilities`; restricted to any fixed total they coincide with the
unsorted bucket list (stable sort), whose keys appear in the order first
encountered while scanning the vulnerability list. -/
theorem aggregations_sorted_stable (r : ReportData) :
    (r.host_aggregations).Pairwise
        (fun a b => b.total_vulnerabilities ≤ a.total_vulnerabilities) ∧
      (∀ t, (r.host_aggregations).filter (fun b => b.total_vulnerabilities == t) =
        (aggregateBy (fun v => v.hosts) r.vulnerabilities).filter
          (fun b => b.total_vulnerabilities == t)) ∧
      (aggregateBy (fun v => v.hosts) r.vulnerabilities).map (fun a => a.entity_id) =
        firstEncounterKeys (r.vulnerabilities.flatMap (fun v => v.hosts)) ∧
      (r.process_group_aggregations).Pairwise
        (fun a b => b.total_vulnerabilities ≤ a.total_vulnerabilities) ∧
      (∀ t, (r.process_group_aggregations).filter
          (fun b => b.total_vulnerabilities == t) =
        (aggregateBy (fun v => v.process_groups) r.vulnerabilities).filter
          (fun b => b.total_vulnerabilities == t)) ∧
      (aggregateBy (fun v => v.process_groups) r.vulnerabilities).map
          (fun a => a.entity_id) =
        firstEncounterKeys (r.vulnerabilities.flatMap (fun v => v.process_groups)) := by
  refine ⟨sortByTotalDesc_pairwise _, fun t => filter_sortByTotalDesc t _,
    aggregateBy_ids _ _, sortByTotalDesc_pairwise _,
    fun t => filter_sortByTotalDesc t _, aggregateBy_ids _ _⟩

/-- Claim C7: the "new" filter is antitone in the window start; a
vulnerability that is new for the later start is new for the earlier one. -/
theorem new_vulnerabilities_monotone (r : ReportData) (s1 s2 : Datetime)
    (h : s1.timestampMs ≤ s2.timestampMs) (v : VulnerabilityData)
    (hv : v ∈ ({ r with start_time := s2 } : ReportData).new_vulnerabilities) :
    v ∈ ({ r with start_time := s1 } : ReportData).new_vulnerabilities := by
  simp only [ReportData.new_vulnerabilities, List.mem_filter,
    decide_eq_true_eq] at hv ⊢
  exact ⟨hv.1, le_trans h hv.2⟩

/-- Witness for C7 at a concrete report and start times 0 ≤ 5. -/
theorem new_vulnerabilities_monotone_witness :
    vulnFixture ∈
      ({ reportFixture with start_time := ⟨0⟩ } : ReportData).new_vulnerabilities :=
  new_vulnerabilities_monotone reportFixture ⟨0⟩ ⟨5⟩ (by decide) vulnFixture (by decide)

/-- Claim C10: every bucket of either aggregation holds at least one
vulnerability, its severity-stat total never exceeds its vulnerability count,
and the two are equal exactly when every vulnerability in the bucket has one
of the four known severities. -/
theorem aggregation_bucket_invariants (r : ReportData) (b : Aggregation)
    (hb : b ∈ r.host_aggregations ∨ b ∈ r.process_group_aggregations) :
    1 ≤ b.total_vulnerabilities ∧
      b.severity_stats.total ≤ b.total_vulnerabilities ∧
      (b.severity_stats.total = b.total_vulnerabilities ↔
        ∀ v ∈ b.vulnerabilities, v.severity.isKnown) := by
  have hinv : BucketInv b := by
    rcases hb with hb | hb
    · rw [ReportData.host_aggregations] at hb
      exact aggregateBy_inv _ _ b ((sortByTotalDesc_perm _).mem_iff.mp hb)
    · rw [ReportData.process_group_aggregations] at hb
      exact aggregateBy_inv _ _ b ((sortByTotalDesc_perm _).mem_iff.mp hb)
  rcases hinv with ⟨hs, hn, -⟩
  refine ⟨?_, ?_, ?_⟩
  · exact Nat.succ_le_of_lt (List.length_pos.mpr hn)
  · rw [Aggregation.total_vulnerabilities, hs, severityStatsOf_total]
    exact List.countP_le_length _
  · rw [Aggregation.total_vulnerabilities, hs, severityStatsOf_total]
    exact List.countP_eq_length

/-- Witness for C10 at the concrete one-host report's single bucket. -/
theorem aggregation_bucket_invariants_witness :
    1 ≤ bucketFixture.total_vulnerabilities ∧
      bucketFixture.severity_stats.total ≤ bucketFixture.total_vulnerabilities ∧
      (bucketFixture.severity_stats.total = bucketFixture.total_vulnerabilities ↔
        ∀ v ∈ bucketFixture.vulnerabilities, v.severity.isKnown) :=
  aggregation_bucket_invariants reportFixture bucketFixture (Or.inl (by decide))

/-- Claim C3: for any fetch environment presenting a 3-page cursor chain of
200 responses, the paginated listing returns exactly the first page's items
followed by the second's followed by the third's, given fuel for the two
cursor follow-ups. -/
theorem query_all_three_pages
    (fetch : String → HttpResponse SecurityProblemsPage) (tenant endpoint : String)
    (p1 p2 p3 : List String) (k1 k2 : String) (r1 r2 r3 c1 c2 c3 : String)
    (fuel : Nat) (hfuel : 2 ≤ fuel)
    (h1 : fetch (tenant ++ endpoint) = ⟨200, r1, c1, ⟨p1, some k1⟩⟩)
    (h2 : fetch (tenant ++ nextPageEndpoint k1) = ⟨200, r2, c2, ⟨p2, some k2⟩⟩)
    (h3 : fetch (tenant ++ nextPageEndpoint k2) = ⟨200, r3, c3, ⟨p3, Option.none⟩⟩) :
    query_all_security_problems fetch tenant endpoint fuel =
      some (Except.ok (p1 ++ p2 ++ p3)) := by
  obtain ⟨n, rfl⟩ : ∃ n, fuel = n + 2 := ⟨fuel - 2, by omega⟩
  simp [query_all_security_problems, query_api, h1, h2, h3,
    followSecurityProblemPages]

/-- Witness for C3 at the concrete three-page fixture. -/
theorem query_all_three_pages_witness :
    query_all_security_problems threePageFetch "https://tenant"
        "/api/v2/securityProblems?pageSize=500" 2 =
      some (Except.ok ["a1", "a2", "b1", "c1"]) :=
  query_all_three_pages threePageFetch "https://tenant"
    "/api/v2/securityProblems?pageSize=500" ["a1", "a2"] ["b1"] ["c1"]
    "KEY1" "KEY2" "OK" "OK" "OK" "" "" "" 2 (by decide)
    (by decide) (by decide) (by decide)

/-- Claim C4 counterexample: a page answered with HTTP 204 — a success
(2xx) status — still makes the operation fail, because `query_api` accepts
only exactly 200; so "raises if and only if some page has a non-2xx status"
is false on this code. -/
theorem query_all_error_counterexample :
    (200 ≤ 204 ∧ 204 < 300) ∧
      query_all_security_problems successStatusFetch "https://tenant"
          "/api/v2/securityProblems" 5 =
        some (Except.error ⟨204, "No Content", ""⟩) := by
  exact ⟨by decide, by rfl⟩

/-- Claim C4 (amended): the operation fails exactly when a fetched page's
status differs from 200 (the code treats only 200 as success, so even other
2xx codes raise); the error carries that page's status code, reason phrase
and body; a single all-items page succeeds; and a failing second page makes
the whole operation fail with no partial first-page result. -/
theorem query_all_error_behavior
    (fetch : String → HttpResponse SecurityProblemsPage) (tenant endpoint : String)
    (fuel : Nat) (hfuel : 1 ≤ fuel) :
    ((fetch (tenant ++ endpoint)).status_code ≠ 200 →
      query_all_security_problems fetch tenant endpoint fuel =
        some (Except.error ⟨(fetch (tenant ++ endpoint)).status_code,
          (fetch (tenant ++ endpoint)).reason, (fetch (tenant ++ endpoint)).content⟩)) ∧
    ((fetch (tenant ++ endpoint)).status_code = 200 →
      (fetch (tenant ++ endpoint)).body.nextPageKey = Option.none →
      query_all_security_problems fetch tenant endpoint fuel =
        some (Except.ok (fetch (tenant ++ endpoint)).body.securityProblems)) ∧
    (∀ k1, (fetch (tenant ++ endpoint)).status_code = 200 →
      (fetch (tenant ++ endpoint)).body.nextPageKey = some k1 →
      (fetch (tenant ++ nextPageEndpoint k1)).status_code ≠ 200 →
      query_all_security_problems fetch tenant endpoint fuel =
        some (Except.error ⟨(fetch (tenant ++ nextPageEndpoint k1)).status_code,
          (fetch (tenant ++ nextPageEndpoint k1)).reason,
          (fetch (tenant ++ nextPageEndpoint k1)).content⟩)) := by
  obtain ⟨n, rfl⟩ : ∃ n, fuel = n + 1 := ⟨fuel - 1, by omega⟩
  refine ⟨?_, ?_, ?_⟩
  · intro hbad
    rw [query_all_security_problems]
    simp only [query_api, if_pos hbad]
  · intro hok hnone
    rw [query_all_security_problems]
    simp only [query_api, if_neg (by omega : ¬ (fetch (tenant ++ endpoint)).status_code ≠ 200)]
    rw [hnone, followSecurityProblemPages]
  · intro k1 hok hkey hbad
    rw [query_all_security_problems]
    simp only [query_api, if_neg (by omega : ¬ (fetch (tenant ++ endpoint)).status_code ≠ 200)]
    rw [hkey, followSecurityProblemPages]
    simp only [query_api, if_pos hbad]

/-- Witness for the amended C4: a 500 first page fails with its details. -/
theorem query_all_error_behavior_witness :
    query_all_security_problems errorPageFetch "https://tenant" "/x" 1 =
      some (Except.error ⟨500, "Internal Server Error", "boom"⟩) :=
  (query_all_error_behavior errorPageFetch "https://tenant" "/x" 1 (by decide)).1
    (by decide)

theorem cleanupTempHtml_removes (temp_html : String) (fs : String → Bool) :
    cleanupTempHtml temp_html fs temp_html = false := by
  rw [cleanupTempHtml]
  split
  · simp [removeFile]
  · rename_i h
    simpa using h

/-- Claim C8: whatever the HTML generation step and the conversion step do
to the filesystem, and whether either raises, after `generate` the temp
HTML file derived from the output path does not exist. -/
theorem pdf_generate_cleans_temp
    (htmlStep conversionStep : (String → Bool) → (String → Bool) × Option String)
    (output_file : String) (fs : String → Bool) :
    (PdfReportGenerator.generate htmlStep conversionStep output_file fs).1
      (withTempHtmlSuffix output_file) = false := by
  rw [PdfReportGenerator.generate]
  rcases hh : htmlStep fs with ⟨fs1, e1⟩
  cases e1 with
  | none =>
      rcases hc : conversionStep fs1 with ⟨fs2, result⟩
      simp only [hh, hc]
      exact cleanupTempHtml_removes _ _
  | some e =>
      simp only [hh]
      exact cleanupTempHtml_removes _ _

theorem cacheLookup_append_self (l : List (String × String)) (pid d : String)
    (h : cacheLookup l pid = Option.none) :
    cacheLookup (l ++ [(pid, d)]) pid = some d := by
  induction l with
  | nil => simp [cacheLookup]
  | cons kv rest ih =>
      obtain ⟨k, v⟩ := kv
      rw [List.cons_append, cacheLookup]
      rw [cacheLookup] at h
      split
      · rename_i hk
        rw [if_pos hk] at h
        exact absurd h (by simp)
      · rename_i hk
        rw [if_neg hk] at h
        exact ih h

/-- Claim C9: on one client instance, after a successful detail lookup a
second lookup of the same identifier performs no additional HTTP fetch,
returns the same result, and leaves the client (and its cache) unchanged.
The cache is a field of the client value, so it exists only as part of that
instance. -/
theorem details_memoized (fetch : String → HttpResponse String)
    (c : DynatraceApi) (pid d : String) (c' : DynatraceApi) (n : Nat)
    (h : get_security_problem_details fetch c pid = (Except.ok d, c', n)) :
    get_security_problem_details fetch c' pid = (Except.ok d, c', 0) := by
  rw [get_security_problem_details] at h
  cases hc : cacheLookup c.details_cache pid with
  | some d0 =>
      rw [hc] at h
      simp only [Prod.mk.injEq, Except.ok.injEq] at h
      obtain ⟨rfl, rfl, -⟩ := h
      rw [get_security_problem_details, hc]
  | none =>
      rw [hc] at h
      cases hq : query_api fetch c.tenant (detailsEndpoint pid) with
      | error e =>
          rw [hq] at h
          simp at h
      | ok d1 =>
          rw [hq] at h
          simp only [Prod.mk.injEq, Except.ok.injEq] at h
          obtain ⟨rfl, rfl, -⟩ := h
          rw [get_security_problem_details]
          dsimp only
          rw [cacheLookup_append_self c.details_cache pid d1 hc]

/-- Witness for C9: the second lookup on the concrete client is served from
the cache. -/
theorem details_memoized_witness :
    get_security_problem_details detailFetch clientAfterLookup "SP-1" =
      (Except.ok "detail-record", clientAfterLookup, 0) :=
  details_memoized detailFetch clientFixture "SP-1" "detail-record"
    clientAfterLookup 1 (by rfl)

end AppSec
